import Mathlib

/-!
# Verification of the free-proxy-server core

A shallow embedding of the proxy-pool library: the proxy record data model,
the declarative filter engine, the batch validator, and the rotation
structure, together with proofs of the behavioural properties the
specification states about them.

The library core (the `free_proxy_server` package: `ProxyFilter`,
`ProxyValidator`, `ProxyRotator`, the client facades) is exercised by the
repository's example scripts but its implementation modules are not part of
the source tree available here; the component definitions below are
therefore modelled from the specification, keeping the names the examples
use (`validate_proxies`, `get_next`, `get_random`, `remove_proxy`,
`get_proxies`).
-/

namespace FreeProxyServer

/-- Modelled from the spec: the protocol enumeration of §3,
`{http, https, socks4, socks5}`. -/
inductive Protocol where
  | http
  | https
  | socks4
  | socks5
deriving DecidableEq

/-- Modelled from the spec: the `ProxyRecord` data model of §3. `country`,
`timeout_ms` and `is_working` are optional; `is_working` is tri-state
(unknown / true / false), represented as `Option Bool`. Field names follow
the accessors the example scripts use (`proxy.address`, `proxy.port`,
`proxy.protocol`, `proxy.country`, `proxy.timeout_ms`,
`proxy.is_working`). -/
structure ProxyRecord where
  address : String
  port : Nat
  protocol : Protocol
  country : Option String := none
  timeout_ms : Option Nat := none
  is_working : Option Bool := none
deriving DecidableEq

instance : Inhabited ProxyRecord := ⟨⟨"", 0, Protocol.http, none, none, none⟩⟩

/-- Modelled from the spec: identity of a logical proxy, §3 — two records
are the same logical proxy iff `(address, port, protocol)` match. -/
def sameProxy (a b : ProxyRecord) : Bool :=
  a.address == b.address && a.port == b.port && a.protocol == b.protocol

/-- Modelled from the spec: the declarative `ProxyFilter` specification of
§3 — all fields optional, absent field means no constraint on that
dimension. Field names follow the example scripts
(`ProxyFilter(country=..., protocol=..., min_timeout=..., max_timeout=...,
working_only=..., limit=...)`). `limit` is carried as an integer so that
the non-positive-limit configuration error of §4.1/§7 is representable. -/
structure ProxyFilter where
  country : Option String := none
  protocol : Option Protocol := none
  min_timeout : Option Nat := none
  max_timeout : Option Nat := none
  working_only : Bool := false
  limit : Option Int := none
deriving DecidableEq

/-- Modelled from the spec: configuration errors of §7 — invalid filter
range or non-positive limit. -/
inductive ConfigurationError where
  | badRange
  | nonPositiveLimit
deriving DecidableEq

/-- Modelled from the spec: per-record constraint evaluation of §4.1 — a
record passes iff all present constraints hold; `working_only=true`
requires `is_working == true` (unknown liveness fails); a numeric range
constraint fails on a record whose `timeout_ms` is absent. -/
def matchesFilter (f : ProxyFilter) (r : ProxyRecord) : Bool :=
  (match f.country with
   | none => true
   | some c => r.country == some c) &&
  (match f.protocol with
   | none => true
   | some p => r.protocol == p) &&
  (match f.min_timeout with
   | none => true
   | some lo => match r.timeout_ms with
     | none => false
     | some t => lo ≤ t) &&
  (match f.max_timeout with
   | none => true
   | some hi => match r.timeout_ms with
     | none => false
     | some t => t ≤ hi) &&
  (!f.working_only || r.is_working == some true)

/-- Modelled from the spec: validity of the numeric range of a filter —
`min_timeout > max_timeout` is malformed (§4.1 errors). -/
def validRange (f : ProxyFilter) : Bool :=
  match f.min_timeout, f.max_timeout with
  | some lo, some hi => lo ≤ hi
  | _, _ => true

/-- Modelled from the spec: validity of the `limit` field — a present
`limit ≤ 0` is an input-validation error (§4.1). -/
def validLimit (f : ProxyFilter) : Bool :=
  match f.limit with
  | none => true
  | some k => 0 < k

/-- Modelled from the spec: truncation of the result to the first `limit`
survivors, §4.1 — `limit` applied last, absent limit means no
truncation. -/
def applyLimit (limit : Option Int) (l : List ProxyRecord) : List ProxyRecord :=
  match limit with
  | none => l
  | some k => l.take k.toNat

/-- Modelled from the spec: the filter engine contract `apply` of §4.1 —
malformed filter values fail fast with a configuration error before any
record is scanned; otherwise every record is evaluated against the present
constraints (stable filter) and `limit` truncates the result last. -/
def applyFilter (f : ProxyFilter) (records : List ProxyRecord) :
    Except ConfigurationError (List ProxyRecord) :=
  if validRange f then
    if validLimit f then
      Except.ok (applyLimit f.limit (records.filter (fun r => matchesFilter f r)))
    else
      Except.error ConfigurationError.nonPositiveLimit
  else
    Except.error ConfigurationError.badRange

/-! ## Validator (§4.2, §5)

The live network probe itself is abstracted as a function
`probe : ProxyRecord → Option Nat`: `some t` means the request through the
proxy succeeded within the timeout with observed latency `t`; `none` means
any failure (connection refused, TLS failure, timeout expiry, non-success
status). The validator's behaviour over such a probe outcome is what the
specification constrains. -/

/-- Modelled from the spec: how one probe outcome updates a record, §4.2 —
success marks `is_working=true` and records the elapsed time as
`timeout_ms`; any failure marks `is_working=false` with `timeout_ms` left
absent. The record is replaced, not mutated (§3 lifecycle). -/
def applyProbe (probe : ProxyRecord → Option Nat) (r : ProxyRecord) : ProxyRecord :=
  match probe r with
  | some t => { r with is_working := some true, timeout_ms := some t }
  | none => { r with is_working := some false, timeout_ms := none }

/-- Modelled from the spec: the batch validation contract `validate` of
§4.2 (the examples call it `validate_proxies`) — probes each record
independently and returns records with `is_working`/`timeout_ms`
populated, same cardinality and order as input; failures are not
dropped. -/
def validate_proxies (probe : ProxyRecord → Option Nat)
    (records : List ProxyRecord) : List ProxyRecord :=
  records.map (applyProbe probe)

/-- Modelled from the spec: the convenience entry point `validateAll` of
§4.2 — filters the batch validation output to only `is_working=true`
entries. -/
def validate_all (probe : ProxyRecord → Option Nat)
    (records : List ProxyRecord) : List ProxyRecord :=
  (validate_proxies probe records).filter (fun r => r.is_working == some true)

/-- The probe result destined for slot `i` of the result array. -/
def probeValue (probe : ProxyRecord → Option Nat) (records : List ProxyRecord)
    (i : Nat) : ProxyRecord :=
  applyProbe probe (records.getD i default)

/-- Modelled from the spec: the write-once indexed result slots of §5 —
each completing probe writes its result into its own pre-assigned slot,
in the order the probes happen to complete (`order`). -/
def writeSlots (probe : ProxyRecord → Option Nat) (records : List ProxyRecord) :
    List Nat → List (Option ProxyRecord) → List (Option ProxyRecord)
  | [], slots => slots
  | i :: rest, slots =>
      writeSlots probe records rest (slots.set i (some (probeValue probe records i)))

/-- Modelled from the spec: batch validation as actually scheduled (§5) —
a pre-sized result array of empty slots, filled write-once as probes
complete in an arbitrary completion order. -/
def scheduledValidate (probe : ProxyRecord → Option Nat)
    (records : List ProxyRecord) (order : List Nat) : List (Option ProxyRecord) :=
  writeSlots probe records order (List.replicate records.length none)

/-! ## Concurrency bound of the validator (§4.2, §5)

The bounded-semaphore scheduling discipline is modelled as a transition
system over the probe tasks of one `validate` call: a pending probe may
start only while fewer than `k` probes are in flight; a probe in flight
may finish at any time. Completion order is unconstrained. -/

/-- Modelled from the spec: the scheduling state of one validation call —
which probe tasks (identified by their input index) are not yet started,
in flight, or completed. -/
structure ValidatorState where
  pending : List Nat
  inflight : List Nat
  completed : List Nat
deriving DecidableEq

/-- Modelled from the spec: the bounded-semaphore scheduling steps of §5 —
`start` admits a pending probe only while strictly fewer than `k` probes
are in flight (acquiring a slot of the size-`k` semaphore); `finish`
completes any in-flight probe, releasing its slot. -/
inductive ProbeStep (k : Nat) : ValidatorState → ValidatorState → Prop where
  | start (s : ValidatorState) (i : Nat) (hi : i ∈ s.pending)
      (hk : s.inflight.length < k) :
      ProbeStep k s ⟨s.pending.erase i, i :: s.inflight, s.completed⟩
  | finish (s : ValidatorState) (i : Nat) (hi : i ∈ s.inflight) :
      ProbeStep k s ⟨s.pending, s.inflight.erase i, i :: s.completed⟩

/-- The initial scheduling state of a validation call over `n` records: all
probe tasks pending, none started. -/
def initState (n : Nat) : ValidatorState :=
  ⟨List.range n, [], []⟩

/-! ## Rotator (§4.3) -/

/-- Modelled from the spec: the `EmptySetError` of §7 — raised by
`next()`/`randomPick()` on an empty rotation set. -/
inductive EmptySetError where
  | emptySet
deriving DecidableEq

/-- Modelled from the spec: `RotatorState` of §3 — an ordered sequence of
records plus a cursor (an index interpreted modulo the length) for cyclic
selection. -/
structure ProxyRotator where
  proxies : List ProxyRecord
  current_index : Nat
deriving DecidableEq

/-- Modelled from the spec: rotator construction over a snapshot working
set, cursor at the first element. -/
def mkRotator (l : List ProxyRecord) : ProxyRotator :=
  ⟨l, 0⟩

/-- Modelled from the spec: `size()`, a pure query (§4.3). -/
def ProxyRotator.size (r : ProxyRotator) : Nat :=
  r.proxies.length

/-- Modelled from the spec: `isEmpty()`, a pure query (§4.3). -/
def ProxyRotator.is_empty (r : ProxyRotator) : Bool :=
  r.proxies.isEmpty

/-- Modelled from the spec: `next()` of §4.3 (the examples call it
`get_next`) — returns the element at the current cursor, then advances the
cursor by one modulo the current length; fails with an `EmptySetError` on
an empty set. -/
def ProxyRotator.get_next (r : ProxyRotator) :
    Except EmptySetError (ProxyRecord × ProxyRotator) :=
  if r.proxies.isEmpty then
    Except.error EmptySetError.emptySet
  else
    let n := r.proxies.length
    let idx := r.current_index % n
    Except.ok (r.proxies.getD idx default, { r with current_index := (idx + 1) % n })

/-- Modelled from the spec: `randomPick()` of §4.3 (the examples call it
`get_random`) — returns a random element, driven here by an external
`seed`, without disturbing the cursor used by `get_next`; fails with an
`EmptySetError` on an empty set. -/
def ProxyRotator.get_random (r : ProxyRotator) (seed : Nat) :
    Except EmptySetError (ProxyRecord × ProxyRotator) :=
  if r.proxies.isEmpty then
    Except.error EmptySetError.emptySet
  else
    Except.ok (r.proxies.getD (seed % r.proxies.length) default, r)

/-- Modelled from the spec: the pure cursor-adjustment function of §9 —
given the cursor, the removed index and the new length: decrement the
cursor when the removed index was strictly before it, keep it otherwise,
and reduce modulo the new length. -/
def removedCursor (cursor removedIdx newLen : Nat) : Nat :=
  if newLen = 0 then 0
  else (if removedIdx < cursor then cursor - 1 else cursor) % newLen

/-- Modelled from the spec: `remove(record)` of §4.3 (the examples call it
`remove_proxy`) — removes the first occurrence matching
`(address, port, protocol)` and reports whether a removal occurred,
adjusting the cursor through `removedCursor`. -/
def ProxyRotator.remove_proxy (r : ProxyRotator) (p : ProxyRecord) :
    Bool × ProxyRotator :=
  match r.proxies.findIdx? (fun x => sameProxy p x) with
  | none => (false, r)
  | some i =>
      let newList := r.proxies.eraseIdx i
      (true, ⟨newList, removedCursor r.current_index i newList.length⟩)

/-- Runs `k` consecutive `get_next` calls, collecting the returned records
in call order together with the final rotator state; stops early if a call
fails. -/
def rotate_run : ProxyRotator → Nat → List ProxyRecord × ProxyRotator
  | r, 0 => ([], r)
  | r, Nat.succ k =>
    match r.get_next with
    | Except.error _ => ([], r)
    | Except.ok (q, r') =>
      let rest := rotate_run r' k
      (q :: rest.1, rest.2)

/-! ## Client pipeline (§2, §6) -/

/-- Modelled from the spec: deduplication on the logical-proxy key of §3 —
duplicates on `(address, port, protocol)` collapse to the first
occurrence; `seen` accumulates the records already kept. -/
def dedupAux (seen : List ProxyRecord) : List ProxyRecord → List ProxyRecord
  | [] => []
  | r :: rest =>
    if seen.any (fun x => sameProxy r x) then
      dedupAux seen rest
    else
      r :: dedupAux (r :: seen) rest

/-- Modelled from the spec: §3 invariant — duplicates from the data source
are deduplicated on `(address, port, protocol)` before filtering. -/
def dedup (l : List ProxyRecord) : List ProxyRecord :=
  dedupAux [] l

/-- Modelled from the spec: `getProxies(filter?)` of §6 over an already
normalized data-source result — deduplicates on the logical key, then
applies the filter when one is supplied; an omitted filter applies no
constraints. -/
def get_proxies (source : List ProxyRecord) (f : Option ProxyFilter) :
    Except ConfigurationError (List ProxyRecord) :=
  let base := dedup source
  match f with
  | none => Except.ok base
  | some flt => applyFilter flt base

/-! ## Concrete records for evaluating the statements -/

/-- A concrete working US HTTP proxy record. -/
def sampleA : ProxyRecord :=
  { address := "10.0.0.1", port := 8080, protocol := Protocol.http,
    country := some "US", timeout_ms := some 120, is_working := some true }

/-- A concrete record that was never probed: liveness unknown, latency
unmeasured. -/
def sampleB : ProxyRecord :=
  { address := "10.0.0.2", port := 3128, protocol := Protocol.https,
    country := some "DE", timeout_ms := none, is_working := none }

/-- A concrete failing SOCKS5 proxy record. -/
def sampleC : ProxyRecord :=
  { address := "10.0.0.3", port := 1080, protocol := Protocol.socks5,
    country := some "FR", timeout_ms := some 900, is_working := some false }

/-- A concrete probe outcome: only the proxy on port 8080 answers, in
120 ms. -/
def sampleProbe (r : ProxyRecord) : Option Nat :=
  if r.port == 8080 then some 120 else none

/-- A concrete rotator over three records whose cursor points at the
middle one. -/
def rotABC : ProxyRotator :=
  ⟨[sampleA, sampleB, sampleC], 1⟩

/-! ## Theorems -/

/-- `List.getD` agrees with `getElem` below the length. -/
theorem getD_eq_of_lt (l : List ProxyRecord) (i : Nat) (h : i < l.length) :
    l.getD i default = l[i] := by
  simp [List.getD_eq_getElem?_getD, List.getElem?_eq_getElem h]

/-- **C3**: with `working_only = true` the filter keeps a record only when
its `is_working` field is known and equal to `true`; a record whose
liveness is unknown (never probed) is excluded, never treated as passing
by default. -/
theorem workingOnly_requires_known_true (f : ProxyFilter) (r : ProxyRecord)
    (hf : f.working_only = true) :
    (matchesFilter f r = true → r.is_working = some true) ∧
    (r.is_working = none → matchesFilter f r = false) := by
  constructor
  · intro h
    simp only [matchesFilter, hf, Bool.not_true, Bool.false_or,
      Bool.and_eq_true] at h
    exact eq_of_beq h.2
  · intro h
    simp [matchesFilter, hf, h]

/-- Witness for C3: the never-probed record `sampleB` fails a
`working_only` filter. -/
theorem workingOnly_requires_known_true_witness :
    matchesFilter { working_only := true } sampleB = false :=
  (workingOnly_requires_known_true { working_only := true } sampleB rfl).2 rfl

/-- **C4**: a record whose `timeout_ms` is absent is excluded by any filter
that sets `min_timeout` or `max_timeout`: a numeric range constraint is
never satisfied by an unmeasured latency. -/
theorem range_constraint_excludes_unmeasured (f : ProxyFilter) (r : ProxyRecord)
    (ht : r.timeout_ms = none)
    (hf : f.min_timeout ≠ none ∨ f.max_timeout ≠ none) :
    matchesFilter f r = false := by
  rcases hf with hf | hf
  · cases hmin : f.min_timeout with
    | none => exact absurd hmin hf
    | some lo => simp [matchesFilter, hmin, ht]
  · cases hmax : f.max_timeout with
    | none => exact absurd hmax hf
    | some hi => simp [matchesFilter, hmax, ht]

/-- Witness for C4: the unmeasured record `sampleB` fails a
`min_timeout` filter. -/
theorem range_constraint_excludes_unmeasured_witness :
    matchesFilter { min_timeout := some 100 } sampleB = false :=
  range_constraint_excludes_unmeasured { min_timeout := some 100 } sampleB rfl
    (Or.inl (Option.some_ne_none 100))

/-- **C7**: a malformed filter — `min_timeout` above `max_timeout`, or a
non-positive `limit` — makes `applyFilter` fail fast with a
`ConfigurationError`, uniformly in the record sequence: the outcome is the
same error for every input, so no record is scanned and no partial result
is produced. -/
theorem malformed_filter_fails_fast (f : ProxyFilter)
    (hbad : (∃ lo hi, f.min_timeout = some lo ∧ f.max_timeout = some hi ∧ hi < lo) ∨
            (∃ k : Int, f.limit = some k ∧ k ≤ 0)) :
    ∃ e : ConfigurationError, ∀ records : List ProxyRecord,
      applyFilter f records = Except.error e := by
  cases hr : validRange f with
  | false =>
    exact ⟨ConfigurationError.badRange, fun records => by simp [applyFilter, hr]⟩
  | true =>
    have hl : validLimit f = false := by
      rcases hbad with ⟨lo, hi, hmin, hmax, hlt⟩ | ⟨k, hk, hk0⟩
      · exfalso
        simp [validRange, hmin, hmax] at hr
        omega
      · simp [validLimit, hk]
        omega
    exact ⟨ConfigurationError.nonPositiveLimit,
      fun records => by simp [applyFilter, hr, hl]⟩

/-- Witness for C7: a filter whose minimum exceeds its maximum is rejected
on every input sequence. -/
theorem malformed_filter_fails_fast_witness :
    ∃ e : ConfigurationError, ∀ records : List ProxyRecord,
      applyFilter { min_timeout := some 500, max_timeout := some 100 } records =
        Except.error e :=
  malformed_filter_fails_fast { min_timeout := some 500, max_timeout := some 100 }
    (Or.inl ⟨500, 100, rfl, rfl, by decide⟩)

/-- **C6**: a successful `applyFilter` result is a sublist of the input
(stable filter: relative order preserved, no reordering), and `limit` is
applied after all other constraints: when the filter matches at least
`k` records and `limit = k`, the result is exactly the first `k`
survivors. -/
theorem filter_stable_and_limit_last (f : ProxyFilter)
    (records res : List ProxyRecord)
    (hok : applyFilter f records = Except.ok res) :
    res.Sublist records ∧
    (∀ k : Int, f.limit = some k →
      k.toNat ≤ (records.filter (fun r => matchesFilter f r)).length →
      res = (records.filter (fun r => matchesFilter f r)).take k.toNat ∧
      res.length = k.toNat) := by
  have hres : res = applyLimit f.limit (records.filter (fun r => matchesFilter f r)) := by
    simp only [applyFilter] at hok
    split at hok
    · split at hok
      · exact (Except.ok.inj hok).symm
      · exact Except.noConfusion hok
    · exact Except.noConfusion hok
  constructor
  · rw [hres]
    cases hl : f.limit with
    | none =>
      simp only [applyLimit]
      exact List.filter_sublist records
    | some k =>
      exact List.Sublist.trans (List.take_sublist _ _) (List.filter_sublist records)
  · intro k hk hlen
    constructor
    · simp only [hres, hk, applyLimit]
    · simp only [hres, hk, applyLimit, List.length_take]
      omega

/-- Witness for C6: an HTTP-only filter with `limit = 1` over three
records keeps exactly the first surviving record. -/
theorem filter_stable_and_limit_last_witness :
    [sampleA].Sublist [sampleA, sampleB, sampleC] ∧
    (∀ k : Int,
      (ProxyFilter.mk none (some Protocol.http) none none false (some 1)).limit = some k →
      k.toNat ≤ ([sampleA, sampleB, sampleC].filter
        (fun r => matchesFilter (ProxyFilter.mk none (some Protocol.http) none none false (some 1)) r)).length →
      [sampleA] = ([sampleA, sampleB, sampleC].filter
        (fun r => matchesFilter (ProxyFilter.mk none (some Protocol.http) none none false (some 1)) r)).take k.toNat ∧
      [sampleA].length = k.toNat) :=
  filter_stable_and_limit_last
    (ProxyFilter.mk none (some Protocol.http) none none false (some 1))
    [sampleA, sampleB, sampleC] [sampleA] rfl

/-- `dedupAux` yields a sublist of its input: deduplication keeps first
occurrences in source order. -/
theorem dedupAux_sublist (seen l : List ProxyRecord) :
    (dedupAux seen l).Sublist l := by
  induction l generalizing seen with
  | nil => simp [dedupAux]
  | cons r rest ih =>
    rw [dedupAux]
    split
    · exact (ih seen).cons r
    · exact (ih (r :: seen)).cons₂ r

/-- **C10**: `get_proxies` with the filter argument omitted applies no
constraints — it returns the whole deduplicated record sequence, in source
order, and coincides with applying a `ProxyFilter` with every field
absent: the empty filter is the identity on record sequences. -/
theorem get_proxies_empty_filter_identity (source : List ProxyRecord) :
    get_proxies source none = Except.ok (dedup source) ∧
    get_proxies source (some {}) = get_proxies source none ∧
    (dedup source).Sublist source := by
  refine ⟨rfl, ?_, dedupAux_sublist [] source⟩
  have hmatch : ∀ r : ProxyRecord, matchesFilter {} r = true := fun r => rfl
  simp [get_proxies, applyFilter, validRange, validLimit, applyLimit,
    List.filter_eq_self.mpr (fun a _ => hmatch a)]

/-- `writeSlots` never changes the size of the slot array. -/
theorem writeSlots_length (probe : ProxyRecord → Option Nat)
    (records : List ProxyRecord) (order : List Nat)
    (slots : List (Option ProxyRecord)) :
    (writeSlots probe records order slots).length = slots.length := by
  induction order generalizing slots with
  | nil => rfl
  | cons i rest ih =>
    rw [writeSlots, ih]
    exact List.length_set slots i _

/-- A slot whose index never completes is left untouched by
`writeSlots`. -/
theorem writeSlots_getElem?_of_not_mem (probe : ProxyRecord → Option Nat)
    (records : List ProxyRecord) (order : List Nat)
    (slots : List (Option ProxyRecord)) (j : Nat) (hj : j ∉ order) :
    (writeSlots probe records order slots)[j]? = slots[j]? := by
  induction order generalizing slots with
  | nil => rfl
  | cons i rest ih =>
    simp only [List.mem_cons, not_or] at hj
    rw [writeSlots, ih _ hj.2, List.getElem?_set_ne (Ne.symm hj.1)]

/-- A slot whose index completes at least once ends up holding that
index's probe result, independent of when in the completion order it was
written. -/
theorem writeSlots_getElem?_of_mem (probe : ProxyRecord → Option Nat)
    (records : List ProxyRecord) (order : List Nat)
    (slots : List (Option ProxyRecord)) (j : Nat) (hj : j ∈ order)
    (hlt : j < slots.length) :
    (writeSlots probe records order slots)[j]? =
      some (some (probeValue probe records j)) := by
  induction order generalizing slots with
  | nil => cases hj
  | cons i rest ih =>
    by_cases hr : j ∈ rest
    · rw [writeSlots]
      exact ih _ hr (by rw [List.length_set]; exact hlt)
    · have hij : j = i := by
        rcases List.mem_cons.mp hj with h | h
        · exact h
        · exact absurd h hr
      subst hij
      rw [writeSlots, writeSlots_getElem?_of_not_mem probe records rest _ j hr,
        List.getElem?_set_self hlt]

/-- **C1**: batch validation returns a sequence with the same cardinality
and positional order as its input — output slot `i` holds exactly the probe
outcome of input record `i`, failures are marked rather than dropped — and
the scheduled, write-once-into-indexed-slots execution produces the same
sequence for every completion order of the underlying probes. -/
theorem validate_preserves_cardinality_and_order
    (probe : ProxyRecord → Option Nat) (records : List ProxyRecord)
    (order : List Nat) (horder : order.Perm (List.range records.length)) :
    (validate_proxies probe records).length = records.length ∧
    (∀ i : Nat, (validate_proxies probe records)[i]? =
      (records[i]?).map (applyProbe probe)) ∧
    scheduledValidate probe records order =
      (validate_proxies probe records).map (fun r => some r) := by
  have hmem : ∀ j, j ∈ order ↔ j < records.length := by
    intro j
    rw [horder.mem_iff, List.mem_range]
  refine ⟨List.length_map records _, fun i => (List.getElem?_map _ records i).symm ▸ rfl, ?_⟩
  apply List.ext_getElem?
  intro j
  by_cases hj : j < records.length
  · rw [scheduledValidate,
      writeSlots_getElem?_of_mem probe records order _ j ((hmem j).mpr hj)
        (by rw [List.length_replicate]; exact hj)]
    rw [List.getElem?_map, validate_proxies, List.getElem?_map,
      List.getElem?_eq_getElem hj]
    simp only [Option.map_some']
    rw [probeValue, getD_eq_of_lt records j hj]
  · rw [List.getElem?_eq_none, List.getElem?_eq_none]
    · rw [List.length_map, validate_proxies, List.length_map]
      omega
    · rw [scheduledValidate, writeSlots_length, List.length_replicate]
      omega

/-- Witness for C1: two records probed in reversed completion order still
fill the result slots in input order. -/
theorem validate_preserves_cardinality_and_order_witness :
    (validate_proxies sampleProbe [sampleA, sampleB]).length =
      [sampleA, sampleB].length ∧
    (∀ i : Nat, (validate_proxies sampleProbe [sampleA, sampleB])[i]? =
      ([sampleA, sampleB][i]?).map (applyProbe sampleProbe)) ∧
    scheduledValidate sampleProbe [sampleA, sampleB] [1, 0] =
      (validate_proxies sampleProbe [sampleA, sampleB]).map (fun r => some r) :=
  validate_preserves_cardinality_and_order sampleProbe [sampleA, sampleB]
    [1, 0] (by decide)

/-- **C9**: in every scheduling state reachable from the start of a
validation call over `n` records under the size-`k` semaphore discipline,
at most `k` probes are in flight — the bound holds regardless of the input
size and of how long individual probes take (how late their `finish` steps
come). -/
theorem concurrency_strictly_bounded (k n : Nat) (s : ValidatorState)
    (h : Relation.ReflTransGen (ProbeStep k) (initState n) s) :
    s.inflight.length ≤ k := by
  induction h with
  | refl => exact Nat.zero_le k
  | tail _ hstep ih =>
    cases hstep with
    | start i hi hk => exact hk
    | finish i hi =>
      exact Nat.le_trans (List.length_erase_le _ _) ih

/-- Witness for C9: with `k = 1` and two probe tasks, the state reached by
starting probe 0 has exactly one probe in flight, within the bound. -/
theorem concurrency_strictly_bounded_witness :
    (ValidatorState.mk [1] [0] []).inflight.length ≤ 1 :=
  concurrency_strictly_bounded 1 2 ⟨[1], [0], []⟩
    (Relation.ReflTransGen.single
      (ProbeStep.start (initState 2) 0 (by decide) (by decide)))

/-- Range-indexed `getD` reads reassemble the list itself. -/
theorem map_getD_range (l : List ProxyRecord) :
    (List.range l.length).map (fun j => l.getD j default) = l := by
  apply List.ext_getElem
  · simp
  · intro i h1 h2
    simp only [List.getElem_map, List.getElem_range]
    exact getD_eq_of_lt l i h2

/-- Closed form of `rotate_run`: from cursor `c` over a fixed non-empty
list, `k` calls return the elements at indexes `c, c+1, …` reduced modulo
the length, and leave the cursor at `c + k` reduced modulo the length. -/
theorem rotate_run_closed (l : List ProxyRecord) (hl : l ≠ []) (k : Nat) :
    ∀ c : Nat, c < l.length →
      rotate_run ⟨l, c⟩ k =
        ((List.range k).map (fun j => l.getD ((c + j) % l.length) default),
          ⟨l, (c + k) % l.length⟩) := by
  induction k with
  | zero =>
    intro c hc
    simp [rotate_run, Nat.mod_eq_of_lt hc]
  | succ k ih =>
    intro c hc
    have hn : 0 < l.length := List.length_pos.mpr hl
    have hne : l.isEmpty = false := List.isEmpty_eq_false.mpr hl
    have hstep : (ProxyRotator.mk l c).get_next =
        Except.ok (l.getD c default, ⟨l, (c + 1) % l.length⟩) := by
      simp [ProxyRotator.get_next, hne, Nat.mod_eq_of_lt hc]
    rw [rotate_run, hstep]
    dsimp only
    have hc1 : (c + 1) % l.length < l.length := Nat.mod_lt _ hn
    rw [ih ((c + 1) % l.length) hc1]
    dsimp only
    simp only [Prod.mk.injEq]
    constructor
    · rw [List.range_succ_eq_map]
      simp only [List.map_cons, List.map_map]
      have hfun : (fun j => l.getD (((c + 1) % l.length + j) % l.length) default) =
          ((fun j => l.getD ((c + j) % l.length) default) ∘ Nat.succ) := by
        funext j
        simp only [Function.comp_apply]
        rw [Nat.mod_add_mod]
        congr 2
        omega
      rw [hfun]
      congr 1
      rw [Nat.add_zero, Nat.mod_eq_of_lt hc]
    · have harith : c + 1 + k = c + (k + 1) := by omega
      rw [Nat.mod_add_mod, harith]

/-- **C5**: over a non-empty construction list with no removals,
`l.length` consecutive `get_next` calls return each element exactly once
in construction order, and one further call returns the first element
again. -/
theorem rotator_cyclic (l : List ProxyRecord) (hl : l ≠ []) :
    (rotate_run (mkRotator l) l.length).1 = l ∧
    (rotate_run (mkRotator l) (l.length + 1)).1 = l ++ [l.getD 0 default] := by
  have hn : 0 < l.length := List.length_pos.mpr hl
  have hbase : ∀ k : Nat,
      (rotate_run (mkRotator l) k).1 =
        (List.range k).map (fun j => l.getD (j % l.length) default) := by
    intro k
    rw [mkRotator, rotate_run_closed l hl k 0 hn]
    simp only []
    apply List.map_congr_left
    intro j _
    rw [Nat.zero_add]
  have hfirst : (List.range l.length).map
      (fun j => l.getD (j % l.length) default) = l := by
    rw [List.map_congr_left (fun j hj => by
      rw [Nat.mod_eq_of_lt (List.mem_range.mp hj)])]
    exact map_getD_range l
  constructor
  · rw [hbase l.length, hfirst]
  · rw [hbase (l.length + 1), List.range_succ, List.map_append, hfirst]
    simp [Nat.mod_self]

/-- Witness for C5: from the three-record rotator, three calls return
`A, B, C` and a fourth returns `A` again. -/
theorem rotator_cyclic_witness :
    (rotate_run (mkRotator [sampleA, sampleB, sampleC])
      [sampleA, sampleB, sampleC].length).1 = [sampleA, sampleB, sampleC] ∧
    (rotate_run (mkRotator [sampleA, sampleB, sampleC])
      ([sampleA, sampleB, sampleC].length + 1)).1 =
      [sampleA, sampleB, sampleC] ++ [[sampleA, sampleB, sampleC].getD 0 default] :=
  rotator_cyclic [sampleA, sampleB, sampleC] (List.cons_ne_nil _ _)

/-- **C8**: on an empty rotation set both `get_next` and `get_random` fail
with the `EmptySetError` rather than returning a silent null; on a
non-empty set both succeed, and `get_random` returns the rotator state
unchanged — it does not disturb the cursor used by `get_next`. -/
theorem rotator_empty_errors_random_pure (r : ProxyRotator) :
    (r.proxies = [] →
      r.get_next = Except.error EmptySetError.emptySet ∧
      ∀ seed : Nat, r.get_random seed = Except.error EmptySetError.emptySet) ∧
    (r.proxies ≠ [] →
      (∃ q s, r.get_next = Except.ok (q, s)) ∧
      ∀ seed : Nat, ∃ q, r.get_random seed = Except.ok (q, r)) := by
  constructor
  · intro h
    have he : r.proxies.isEmpty = true := by simp [h]
    constructor
    · simp [ProxyRotator.get_next, he]
    · intro seed
      simp [ProxyRotator.get_random, he]
  · intro h
    have he : r.proxies.isEmpty = false := List.isEmpty_eq_false.mpr h
    constructor
    · exact ⟨r.proxies.getD (r.current_index % r.proxies.length) default,
        { r with current_index :=
            (r.current_index % r.proxies.length + 1) % r.proxies.length },
        by simp [ProxyRotator.get_next, he]⟩
    · intro seed
      exact ⟨r.proxies.getD (seed % r.proxies.length) default,
        by simp [ProxyRotator.get_random, he]⟩

/-- Witness for C8: the empty rotator fails `get_next` with the
`EmptySetError`, and `get_random` on a singleton rotator leaves its state
intact. -/
theorem rotator_empty_errors_random_pure_witness :
    (mkRotator []).get_next = Except.error EmptySetError.emptySet ∧
    ∃ q, (mkRotator [sampleA]).get_random 7 = Except.ok (q, mkRotator [sampleA]) :=
  ⟨((rotator_empty_errors_random_pure (mkRotator [])).1 rfl).1,
    ((rotator_empty_errors_random_pure (mkRotator [sampleA])).2
      (List.cons_ne_nil _ _)).2 7⟩

/-- **C2**: `remove_proxy` deletes the first occurrence matching
`(address, port, protocol)` and reports whether a removal occurred (false
and an unchanged state when nothing matches); a removed index strictly
before the cursor decrements the cursor by one, a removed index at or
after the cursor leaves it unchanged modulo the new length; the cursor
never ends up pointing past the new end; and removing the element at the
cursor makes the next `get_next` call return the element that previously
followed it, wrapping to the front when the removed element was last. -/
theorem remove_proxy_spec (r : ProxyRotator) (p : ProxyRecord)
    (hcur : r.current_index < r.proxies.length) :
    ((r.remove_proxy p).1 = r.proxies.any (fun x => sameProxy p x)) ∧
    (r.proxies.findIdx? (fun x => sameProxy p x) = none →
      (r.remove_proxy p).2 = r) ∧
    (∀ i, r.proxies.findIdx? (fun x => sameProxy p x) = some i →
      sameProxy p (r.proxies.getD i default) = true ∧
      (∀ j, j < i → sameProxy p (r.proxies.getD j default) = false) ∧
      (r.remove_proxy p).2.proxies = r.proxies.take i ++ r.proxies.drop (i + 1) ∧
      (r.remove_proxy p).2.proxies.length = r.proxies.length - 1 ∧
      (i < r.current_index →
        (r.remove_proxy p).2.current_index = r.current_index - 1) ∧
      (r.current_index ≤ i → 1 < r.proxies.length →
        (r.remove_proxy p).2.current_index =
          r.current_index % (r.proxies.length - 1)) ∧
      (1 < r.proxies.length →
        (r.remove_proxy p).2.current_index < r.proxies.length - 1) ∧
      (i = r.current_index → 1 < r.proxies.length →
        ((r.remove_proxy p).2.get_next).toOption.map Prod.fst =
          some (r.proxies.getD ((i + 1) % r.proxies.length) default))) := by
  refine ⟨?_, ?_, ?_⟩
  · cases hfind : r.proxies.findIdx? (fun x => sameProxy p x) with
    | none =>
      simp only [ProxyRotator.remove_proxy, hfind]
      rw [List.findIdx?_eq_none_iff] at hfind
      symm
      rw [List.any_eq_false]
      exact fun x hx => by simpa using hfind x hx
    | some i =>
      simp only [ProxyRotator.remove_proxy, hfind]
      obtain ⟨hi, hpi, -⟩ := List.findIdx?_eq_some_iff_getElem.mp hfind
      symm
      rw [List.any_eq_true]
      exact ⟨_, List.getElem_mem hi, hpi⟩
  · intro hfind
    simp [ProxyRotator.remove_proxy, hfind]
  · intro i hfind
    obtain ⟨hi, hpi, hprev⟩ := List.findIdx?_eq_some_iff_getElem.mp hfind
    have hrem : (r.remove_proxy p).2 =
        ⟨r.proxies.eraseIdx i,
          removedCursor r.current_index i (r.proxies.eraseIdx i).length⟩ := by
      simp [ProxyRotator.remove_proxy, hfind]
    have hlen : (r.proxies.eraseIdx i).length = r.proxies.length - 1 :=
      List.length_eraseIdx_of_lt hi
    refine ⟨?_, ?_, ?_, ?_, ?_, ?_, ?_, ?_⟩
    · rw [getD_eq_of_lt _ _ hi]
      exact hpi
    · intro j hj
      rw [getD_eq_of_lt _ _ (Nat.lt_trans hj hi)]
      have := hprev j hj
      simpa using this
    · rw [hrem]
      exact List.eraseIdx_eq_take_drop_succ r.proxies i
    · rw [hrem]
      exact hlen
    · intro hlt
      rw [hrem]
      show removedCursor r.current_index i (r.proxies.eraseIdx i).length =
        r.current_index - 1
      rw [hlen, removedCursor]
      rw [if_neg (by omega : ¬ r.proxies.length - 1 = 0), if_pos hlt]
      exact Nat.mod_eq_of_lt (by omega)
    · intro hge hn2
      rw [hrem]
      show removedCursor r.current_index i (r.proxies.eraseIdx i).length =
        r.current_index % (r.proxies.length - 1)
      rw [hlen, removedCursor]
      rw [if_neg (by omega : ¬ r.proxies.length - 1 = 0),
        if_neg (by omega : ¬ i < r.current_index)]
    · intro hn2
      rw [hrem]
      show removedCursor r.current_index i (r.proxies.eraseIdx i).length <
        r.proxies.length - 1
      rw [hlen, removedCursor]
      rw [if_neg (by omega : ¬ r.proxies.length - 1 = 0)]
      exact Nat.mod_lt _ (by omega)
    · intro heq hn2
      have hm0 : 0 < r.proxies.length - 1 := by omega
      have hne : (r.proxies.eraseIdx i).isEmpty = false := by
        rw [List.isEmpty_eq_false, ← List.length_pos, hlen]
        omega
      have hmodlt : i % (r.proxies.length - 1) < r.proxies.length - 1 :=
        Nat.mod_lt _ hm0
      have hstate : (r.remove_proxy p).2 =
          ⟨r.proxies.eraseIdx i, i % (r.proxies.length - 1)⟩ := by
        rw [hrem, ← heq]
        congr 1
        rw [hlen, removedCursor]
        rw [if_neg (by omega : ¬ r.proxies.length - 1 = 0),
          if_neg (by omega : ¬ i < i)]
      rw [hstate]
      simp only [ProxyRotator.get_next, hne, Bool.false_eq_true, if_false,
        Except.toOption, Option.map_some', hlen]
      rw [Nat.mod_eq_of_lt hmodlt]
      by_cases hlast : i < r.proxies.length - 1
      · have h1 : i % (r.proxies.length - 1) = i := Nat.mod_eq_of_lt hlast
        have h2 : (i + 1) % r.proxies.length = i + 1 :=
          Nat.mod_eq_of_lt (by omega)
        rw [h1, h2, List.getD_eq_getElem?_getD, List.getD_eq_getElem?_getD,
          List.getElem?_eraseIdx_of_ge r.proxies i i (Nat.le_refl i)]
      · have hitop : i = r.proxies.length - 1 := by omega
        have h1 : i % (r.proxies.length - 1) = 0 := by
          rw [hitop]
          exact Nat.mod_self _
        have h2 : (i + 1) % r.proxies.length = 0 := by
          have : i + 1 = r.proxies.length := by omega
          rw [this]
          exact Nat.mod_self _
        rw [h1, h2, List.getD_eq_getElem?_getD, List.getD_eq_getElem?_getD,
          List.getElem?_eraseIdx_of_lt r.proxies i 0 (by omega)]

/-- Witness for C2: removing `sampleB` — the record at the cursor — from
the three-record rotator satisfies every removal clause at a concrete
state. -/
theorem remove_proxy_spec_witness :
    ((rotABC.remove_proxy sampleB).1 =
      rotABC.proxies.any (fun x => sameProxy sampleB x)) ∧
    (rotABC.proxies.findIdx? (fun x => sameProxy sampleB x) = none →
      (rotABC.remove_proxy sampleB).2 = rotABC) ∧
    (∀ i, rotABC.proxies.findIdx? (fun x => sameProxy sampleB x) = some i →
      sameProxy sampleB (rotABC.proxies.getD i default) = true ∧
      (∀ j, j < i → sameProxy sampleB (rotABC.proxies.getD j default) = false) ∧
      (rotABC.remove_proxy sampleB).2.proxies =
        rotABC.proxies.take i ++ rotABC.proxies.drop (i + 1) ∧
      (rotABC.remove_proxy sampleB).2.proxies.length =
        rotABC.proxies.length - 1 ∧
      (i < rotABC.current_index →
        (rotABC.remove_proxy sampleB).2.current_index =
          rotABC.current_index - 1) ∧
      (rotABC.current_index ≤ i → 1 < rotABC.proxies.length →
        (rotABC.remove_proxy sampleB).2.current_index =
          rotABC.current_index % (rotABC.proxies.length - 1)) ∧
      (1 < rotABC.proxies.length →
        (rotABC.remove_proxy sampleB).2.current_index <
          rotABC.proxies.length - 1) ∧
      (i = rotABC.current_index → 1 < rotABC.proxies.length →
        ((rotABC.remove_proxy sampleB).2.get_next).toOption.map Prod.fst =
          some (rotABC.proxies.getD ((i + 1) % rotABC.proxies.length) default))) :=
  remove_proxy_spec rotABC sampleB (by decide)

end FreeProxyServer
